import Mathlib

/-!
Verification of `read_oscilloscope.py`.

The program polls an oscilloscope, parses textual responses of the form
`"<channel>,<value><unit>"`, converts volts to millivolts, and derives a sensor
resistance from two mean voltages.  This file gives a shallow embedding of the
parsing step, the arithmetic, the polling loop of `continuous_measurement`
(lines 98-152), `calculate_resistance` (lines 4-38) and the cleanup logic of
`main` (lines 154-170), and proves the spec's testable properties against it.

Modelling conventions:
* Python `str` values are modelled as `List Char`.
* Python `float` values are modelled as exact rationals `ℚ`; all the concrete
  arithmetic claimed by the spec (`*1000`, `(x/y)*r`) is exact in IEEE doubles
  at the spec's sample points, so the idealisation is faithful there.
* Python `float(text)` is modelled on the standard decimal/scientific literal
  grammar with optional surrounding whitespace and sign (the exotic inputs
  `"inf"`, `"nan"` and underscore digit separators are outside the model; no
  oscilloscope response uses them).
* Exceptions are modelled with `Except` / `Option` results.
-/

namespace ReadOscilloscope

/-- Error kinds of the spec (section 7): `ParseError` covers the `IndexError` and
`ValueError` raised while extracting the numeric field, `DivisionError` the
`ZeroDivisionError` of the resistance ratio, `CommunicationError` a
`pyvisa.VisaIOError`. -/
inductive PyError where
  | parseError
  | divisionError
  | commError
deriving DecidableEq

/-- Exact value of a parsed float literal: `mant * 10 ^ exp`.  Kept in
integer form so that parsing is computable by the kernel. -/
structure Dec where
  mant : Int
  exp : Int
deriving DecidableEq

/-- Ten to an integer power, as a rational. -/
def tenPow (e : Int) : ℚ := (10 : ℚ) ^ e

/-- The rational value denoted by a `Dec`. -/
def Dec.toRat (d : Dec) : ℚ := (d.mant : ℚ) * tenPow d.exp

/-- Value of a string of decimal digits. -/
def digitsVal (ds : List Char) : Nat := ds.foldl (fun a c => 10 * a + (c.toNat - 48)) 0

/-- Digits of an exponent: at least one digit, then only trailing whitespace
(Python's `float` accepts surrounding whitespace). -/
def expDigits (cs : List Char) : Option Int :=
  let ds := cs.takeWhile Char.isDigit
  if ds.isEmpty then none
  else if (cs.dropWhile Char.isDigit).all Char.isWhitespace then some (digitsVal ds) else none

/-- Exponent after the `e`/`E` marker: optional sign, then digits. -/
def expTail : List Char → Option Int
  | '+' :: cs => expDigits cs
  | '-' :: cs => (expDigits cs).map Int.neg
  | cs => expDigits cs

/-- Optional exponent part of a float literal; without a marker only trailing
whitespace may remain. -/
def expPart : List Char → Option Int
  | 'e' :: cs => expTail cs
  | 'E' :: cs => expTail cs
  | l => if l.all Char.isWhitespace then some 0 else none

/-- Unsigned part of a float literal: digits, optional `.` and fraction digits
(at least one digit overall), optional exponent. -/
def parseMag (s : List Char) : Option Dec :=
  let ip := s.takeWhile Char.isDigit
  let r1 := s.dropWhile Char.isDigit
  match r1 with
  | '.' :: r2 =>
    let fp := r2.takeWhile Char.isDigit
    let r3 := r2.dropWhile Char.isDigit
    if ip.isEmpty && fp.isEmpty then none
    else (expPart r3).map (fun e => ⟨(digitsVal ip * 10 ^ fp.length + digitsVal fp : Nat), e - fp.length⟩)
  | _ =>
    if ip.isEmpty then none
    else (expPart r1).map (fun e => ⟨(digitsVal ip : Nat), e⟩)

/-- Models Python `float(text)`: optional leading whitespace, optional sign,
then the unsigned literal. -/
def pyFloat? (s : List Char) : Option Dec :=
  match s.dropWhile Char.isWhitespace with
  | '+' :: cs => parseMag cs
  | '-' :: cs => (parseMag cs).map (fun d => ⟨-d.mant, d.exp⟩)
  | cs => parseMag cs

/-- Python `text.split(",")`: split at every comma, keeping empty fields. -/
def splitOnComma : List Char → List (List Char)
  | [] => [[]]
  | c :: cs =>
    if c = ',' then [] :: splitOnComma cs
    else
      match splitOnComma cs with
      | [] => [[c]]
      | f :: rest => (c :: f) :: rest

/-- The response-parsing step the spec names `QueryValue`, shared verbatim by
`calculate_resistance` (line 25) and `continuous_measurement` (lines 131-134):
`float(resp.split(",")[1].replace("V", ""))` applied to the already-stripped
response text.  A missing field (`IndexError`) and a failed conversion
(`ValueError`) both surface as `ParseError`. -/
def QueryValue (resp : List Char) : Except PyError ℚ :=
  match (splitOnComma resp)[1]? with
  | none => .error .parseError
  | some seg =>
    match pyFloat? (seg.filter (fun c => c ≠ 'V')) with
    | none => .error .parseError
    | some d => .ok d.toRat

/-- Volts-to-millivolts conversion: the `* 1000` of lines 86 and 131-134. -/
def toMillivolts (v : ℚ) : ℚ := v * 1000

/-- The fixed reference resistance `R = 10.0` of line 107. -/
def R : ℚ := 10

/-- The resistance computation of line 136, `(mean_c1_mv / mean_c2_mv) * R`;
Python raises `ZeroDivisionError` on a zero denominator. -/
def ComputeResistance (x y r : ℚ) : Except PyError ℚ :=
  if y = 0 then .error .divisionError else .ok (x / y * r)

/-- One loop iteration's query outcomes (lines 122-125), already stripped of
surrounding whitespace by `.strip()`: `none` models `inst.query` raising
`pyvisa.VisaIOError`, `some s` a returned response text. -/
structure IterIn where
  rms1 : Option (List Char)
  mean1 : Option (List Char)
  rms2 : Option (List Char)
  mean2 : Option (List Char)

/-- Outcome of one pass through the loop body of `continuous_measurement`. -/
inductive IterResult where
  | output (rms1mv mean1mv rms2mv mean2mv rsensor : ℚ)
  | skipParse
  | fatalDivision
  | fatalComm
deriving DecidableEq

/-- The parsing-and-arithmetic part of the loop body (lines 128-143): the four
conversions run in source order inside `try`; an `IndexError`/`ValueError` is
caught at line 138 and the iteration is skipped; the ratio of line 136 raises
`ZeroDivisionError` on a zero denominator, which the `except (IndexError,
ValueError)` clause does not catch. -/
def parseStep (s1 s2 s3 s4 : List Char) : IterResult :=
  match QueryValue s1 with
  | .error _ => .skipParse
  | .ok v1 =>
    match QueryValue s2 with
    | .error _ => .skipParse
    | .ok v2 =>
      match QueryValue s3 with
      | .error _ => .skipParse
      | .ok v3 =>
        match QueryValue s4 with
        | .error _ => .skipParse
        | .ok v4 =>
          match ComputeResistance (toMillivolts v2) (toMillivolts v4) R with
          | .error _ => .fatalDivision
          | .ok r => .output (toMillivolts v1) (toMillivolts v2) (toMillivolts v3) (toMillivolts v4) r

/-- One full loop iteration: the four queries run in order (lines 122-125); the
first `VisaIOError` aborts the iteration, otherwise the body of lines 128-143
runs. -/
def stepIteration (it : IterIn) : IterResult :=
  match it.rms1 with
  | none => .fatalComm
  | some s1 =>
    match it.mean1 with
    | none => .fatalComm
    | some s2 =>
      match it.rms2 with
      | none => .fatalComm
      | some s3 =>
        match it.mean2 with
        | none => .fatalComm
        | some s4 => parseStep s1 s2 s3 s4

/-- Observable event of one iteration: the measurement line of 143 or the
"Unexpected response" line of 139. -/
inductive LoopEvent where
  | printed (rms1mv mean1mv rms2mv mean2mv rsensor : ℚ)
  | skipped
deriving DecidableEq

/-- How a run of the loop ended: `ranOut` means the supplied query outcomes
were exhausted with the loop still going; `generalError` that an exception
(the `ZeroDivisionError`) escaped the loop to the handler of lines 151-152;
`visaError` that a `VisaIOError` escaped to the handler of lines 149-150.
In the latter two cases `continuous_measurement` prints and returns. -/
inductive LoopEnd where
  | ranOut
  | generalError
  | visaError
deriving DecidableEq

/-- Trace of a loop run: the printed events and how it ended. -/
structure LoopTrace where
  events : List LoopEvent
  ending : LoopEnd
deriving DecidableEq

/-- The `while True` loop of `continuous_measurement` (lines 118-152), run over
a finite prefix of query outcomes. -/
def continuousMeasurementLoop : List IterIn → LoopTrace
  | [] => ⟨[], .ranOut⟩
  | it :: rest =>
    match stepIteration it with
    | .output a b c d r =>
      let t := continuousMeasurementLoop rest
      ⟨.printed a b c d r :: t.events, t.ending⟩
    | .skipParse =>
      let t := continuousMeasurementLoop rest
      ⟨.skipped :: t.events, t.ending⟩
    | .fatalDivision => ⟨[], .generalError⟩
    | .fatalComm => ⟨[], .visaError⟩

/-- How `main` ends in the model. -/
inductive MainOutcome where
  | normalReturn
  | uncaughtNameError
deriving DecidableEq

/-- What `main` did: how many times a session was closed, and how it ended. -/
structure MainTrace where
  closeCalls : Nat
  outcome : MainOutcome
deriving DecidableEq

/-- Model of `main` (lines 154-170).  If `open_resource` succeeds, `continuous_measurement`
handles all its exceptions internally and returns, and the `finally` block closes
the one session.  If `open_resource` raises, the `except` clause prints, and the
`finally` block then evaluates `inst.close()` with the local `inst` never bound
(line 159 is the only assignment), so Python raises `NameError`: no session
exists to close and the `NameError` propagates to the caller. -/
def mainModel (openOk : Bool) (iters : List IterIn) : MainTrace :=
  if openOk then
    let _ := continuousMeasurementLoop iters
    ⟨1, .normalReturn⟩
  else
    ⟨0, .uncaughtNameError⟩

/-- What `calculate_resistance` prints: the resistance line of 31, the
"VISA I/O Error" line of 36, or the "General Error" line of 38. -/
inductive CalcPrint where
  | resistanceLine (r : ℚ)
  | visaIOError
  | generalError
deriving DecidableEq

/-- Model of `calculate_resistance` (lines 4-38): checks `current == 0` first (raising
`ValueError`, caught by the `except Exception` clause), then queries (a
`VisaIOError` is caught at line 35), then parses (both parse failures re-raise
`ValueError` at line 27, caught at line 37).  Every handler prints and falls off
the end of the function, returning `None`; the result is the printed lines and
the returned value. -/
def calculate_resistance (current : ℚ) (query : Option (List Char)) :
    List CalcPrint × Option ℚ :=
  if current = 0 then ([.generalError], none)
  else
    match query with
    | none => ([.visaIOError], none)
    | some resp =>
      match QueryValue resp with
      | .error _ => ([.generalError], none)
      | .ok v =>
        let resistance := v / current
        ([.resistanceLine resistance], some resistance)

/-- Modelled from the spec: the text after the FIRST separator, `none` when no
comma occurs (spec section 3: "taking the text after the first separator"). -/
def afterFirstComma : List Char → Option (List Char)
  | [] => none
  | c :: cs => if c = ',' then some cs else afterFirstComma cs

/-- Modelled from the spec: "stripping a trailing unit letter" — drop the last
character when it is a letter. -/
def stripTrailingUnitLetter (s : List Char) : List Char :=
  match s.getLast? with
  | some c => if c.isAlpha then s.dropLast else s
  | none => s

/-- Modelled from the spec: the parsed measurement as claim C3 words it — the
ENTIRE text after the first comma, with one trailing unit letter stripped,
parsed as a float. -/
def specParsedMeasurement (resp : List Char) : Option ℚ :=
  (afterFirstComma resp).bind
    (fun t => (pyFloat? (stripTrailingUnitLetter t)).map Dec.toRat)

/-- The amended C3 rule, written independently of `QueryValue`: the text after
the first comma, truncated at the next comma, with every letter `V` removed,
parsed as a float. -/
def specParsedMeasurementAmended (resp : List Char) : Option ℚ :=
  (afterFirstComma resp).bind
    (fun t => (pyFloat? ((t.takeWhile (fun c => c ≠ ',')).filter (fun c => c ≠ 'V'))).map Dec.toRat)

/-- Forget which error a computation failed with. -/
def exceptToOption : Except PyError ℚ → Option ℚ
  | .ok v => some v
  | .error _ => none

/-- Characters that can occur in a text accepted by `pyFloat?`. -/
def allowedChar (c : Char) : Prop :=
  c.isDigit = true ∨ c.isWhitespace = true ∨ c = '+' ∨ c = '-' ∨ c = '.' ∨ c = 'e' ∨ c = 'E'

/-- A fully well-behaved iteration: all four responses parse and the channel-2
mean is nonzero.  Used as the iteration following a failing one. -/
def goodIter : IterIn :=
  ⟨some "C1,0.5V".toList, some "C1,0.5V".toList, some "C2,0.5V".toList,
    some "C2,0.25V".toList⟩

/-- Characters accepted by the float grammar are neither the field separator
nor the unit letter `V`. -/
theorem allowedChar_ne (c : Char) (h : allowedChar c) : c ≠ ',' ∧ c ≠ 'V' := by
  rcases h with h | h | h | h | h | h | h
  · exact ⟨by rintro rfl; exact absurd h (by decide), by rintro rfl; exact absurd h (by decide)⟩
  · exact ⟨by rintro rfl; exact absurd h (by decide), by rintro rfl; exact absurd h (by decide)⟩
  all_goals subst h; exact ⟨by decide, by decide⟩

/-- Texts accepted by `expDigits` contain only allowed characters. -/
theorem expDigits_mem (cs : List Char) (n : Int) (h : expDigits cs = some n) :
    ∀ c ∈ cs, allowedChar c := by
  intro c hc
  rw [expDigits.eq_def] at h
  simp only [] at h
  split at h
  · exact absurd h (by simp)
  · split at h
    · rename_i hall
      rw [← List.takeWhile_append_dropWhile Char.isDigit cs] at hc
      rcases List.mem_append.mp hc with hm | hm
      · exact Or.inl (List.mem_takeWhile_imp hm)
      · exact Or.inr (Or.inl ((List.all_eq_true.mp hall) c hm))
    · exact absurd h (by simp)

/-- Texts accepted by `expTail` contain only allowed characters. -/
theorem expTail_mem (cs : List Char) (n : Int) (h : expTail cs = some n) :
    ∀ c ∈ cs, allowedChar c := by
  intro c hc
  rw [expTail.eq_def] at h
  split at h
  · rename_i cs'
    rcases List.mem_cons.mp hc with rfl | hm
    · exact Or.inr (Or.inr (Or.inl rfl))
    · exact expDigits_mem cs' n h c hm
  · rename_i cs'
    rcases Option.map_eq_some'.mp h with ⟨m, hm', _⟩
    rcases List.mem_cons.mp hc with rfl | hm
    · exact Or.inr (Or.inr (Or.inr (Or.inl rfl)))
    · exact expDigits_mem cs' m hm' c hm
  · exact expDigits_mem cs n h c hc

/-- Texts accepted by `expPart` contain only allowed characters. -/
theorem expPart_mem (l : List Char) (n : Int) (h : expPart l = some n) :
    ∀ c ∈ l, allowedChar c := by
  intro c hc
  rw [expPart.eq_def] at h
  split at h
  · rename_i cs
    rcases List.mem_cons.mp hc with rfl | hm
    · exact Or.inr (Or.inr (Or.inr (Or.inr (Or.inr (Or.inl rfl)))))
    · exact expTail_mem cs n h c hm
  · rename_i cs
    rcases List.mem_cons.mp hc with rfl | hm
    · exact Or.inr (Or.inr (Or.inr (Or.inr (Or.inr (Or.inr rfl)))))
    · exact expTail_mem cs n h c hm
  · split at h
    · rename_i hall
      exact Or.inr (Or.inl ((List.all_eq_true.mp hall) c hc))
    · exact absurd h (by simp)

/-- Texts accepted by `parseMag` contain only allowed characters. -/
theorem parseMag_mem (s : List Char) (d : Dec) (h : parseMag s = some d) :
    ∀ c ∈ s, allowedChar c := by
  intro c hc
  rw [parseMag.eq_def] at h
  simp only [] at h
  rw [← List.takeWhile_append_dropWhile Char.isDigit s] at hc
  rcases List.mem_append.mp hc with hm | hm
  · exact Or.inl (List.mem_takeWhile_imp hm)
  · split at h
    · rename_i r2 heq
      rw [heq] at hm
      split at h
      · exact absurd h (by simp)
      · rcases Option.map_eq_some'.mp h with ⟨e, he, _⟩
        rcases List.mem_cons.mp hm with rfl | hm2
        · exact Or.inr (Or.inr (Or.inr (Or.inr (Or.inl rfl))))
        · rw [← List.takeWhile_append_dropWhile Char.isDigit r2] at hm2
          rcases List.mem_append.mp hm2 with hm3 | hm3
          · exact Or.inl (List.mem_takeWhile_imp hm3)
          · exact expPart_mem _ e he c hm3
    · split at h
      · exact absurd h (by simp)
      · rcases Option.map_eq_some'.mp h with ⟨e, he, _⟩
        exact expPart_mem _ e he c hm

/-- Texts accepted by `pyFloat?` contain only allowed characters; in
particular a valid float text contains neither a comma nor the letter `V`. -/
theorem pyFloat?_mem (s : List Char) (d : Dec) (h : pyFloat? s = some d) :
    ∀ c ∈ s, allowedChar c := by
  intro c hc
  rw [pyFloat?.eq_def] at h
  rw [← List.takeWhile_append_dropWhile Char.isWhitespace s] at hc
  rcases List.mem_append.mp hc with hm | hm
  · exact Or.inr (Or.inl (List.mem_takeWhile_imp hm))
  · split at h
    · rename_i cs heq
      rw [heq] at hm
      rcases List.mem_cons.mp hm with rfl | hm2
      · exact Or.inr (Or.inr (Or.inl rfl))
      · exact parseMag_mem cs d h c hm2
    · rename_i cs heq
      rw [heq] at hm
      rcases Option.map_eq_some'.mp h with ⟨d2, hd2, _⟩
      rcases List.mem_cons.mp hm with rfl | hm2
      · exact Or.inr (Or.inr (Or.inr (Or.inl rfl)))
      · exact parseMag_mem cs d2 hd2 c hm2
    · exact parseMag_mem _ d h c hm

/-- Splitting a comma-free text yields that text as the single field, as with
Python `split`. -/
theorem splitOnComma_no_comma : ∀ (l : List Char), (∀ c ∈ l, c ≠ ',') → splitOnComma l = [l]
  | [], _ => rfl
  | c :: cs, h => by
    have hc : c ≠ ',' := h c (List.mem_cons_self c cs)
    have ih := splitOnComma_no_comma cs (fun x hx => h x (List.mem_cons_of_mem c hx))
    simp [splitOnComma, hc, ih]

/-- Splitting at the first comma of `a ++ "," ++ b` with `a` comma-free puts
`a` first. -/
theorem splitOnComma_append : ∀ (a b : List Char), (∀ c ∈ a, c ≠ ',') →
    splitOnComma (a ++ ',' :: b) = a :: splitOnComma b
  | [], b, _ => by simp [splitOnComma]
  | c :: a', b, h => by
    have hc : c ≠ ',' := h c (List.mem_cons_self c a')
    have ih := splitOnComma_append a' b (fun x hx => h x (List.mem_cons_of_mem c hx))
    simp [splitOnComma, hc, ih]

/-- The first field produced by `splitOnComma` is the text up to the first
comma. -/
theorem splitOnComma_head : ∀ (l : List Char),
    ∃ t, splitOnComma l = l.takeWhile (fun c => c ≠ ',') :: t
  | [] => ⟨[], rfl⟩
  | c :: cs => by
    by_cases hc : c = ','
    · subst hc
      exact ⟨splitOnComma cs, by simp [splitOnComma]⟩
    · rcases splitOnComma_head cs with ⟨t, ht⟩
      exact ⟨t, by simp [splitOnComma, hc, ht]⟩

/-- The second field produced by `splitOnComma` is the text after the first
comma truncated at the next comma. -/
theorem splitOnComma_get1 : ∀ (l : List Char),
    (splitOnComma l)[1]? = (afterFirstComma l).map (fun t => t.takeWhile (fun c => c ≠ ','))
  | [] => rfl
  | c :: cs => by
    by_cases hc : c = ','
    · subst hc
      rcases splitOnComma_head cs with ⟨t, ht⟩
      simp [splitOnComma, afterFirstComma, ht]
    · have ih := splitOnComma_get1 cs
      rcases splitOnComma_head cs with ⟨t, ht⟩
      rw [ht] at ih
      simp only [splitOnComma, if_neg hc, ht, afterFirstComma]
      simpa [hc] using ih

/-- Rewriting of the final step of `QueryValue` through `exceptToOption`. -/
theorem exceptToOption_match (o : Option Dec) :
    exceptToOption
      (match o with
        | none => Except.error PyError.parseError
        | some d => Except.ok d.toRat) = o.map Dec.toRat := by
  cases o <;> rfl

/-- C1 counterexample: for the well-formed response `"C1,1.234A"` (channel
`C1`, value text `1.234`, unit letter `A`) the claim asserts that `QueryValue`
returns the float `1.234`; the code only removes the letter `V`, so
`float("1.234A")` raises `ValueError` and `QueryValue` fails with
`ParseError` instead. -/
theorem queryValue_unit_letter_cex :
    QueryValue "C1,1.234A".toList ≠ .ok (Dec.toRat ⟨1234, -3⟩) ∧
    QueryValue "C1,1.234A".toList = .error .parseError := by
  refine ⟨?_, rfl⟩
  intro h
  rw [show QueryValue "C1,1.234A".toList = Except.error PyError.parseError from rfl] at h
  exact Except.noConfusion h

/-- C1 (amended): for every well-formed response `ch ++ "," ++ v ++ "V"` whose
channel prefix `ch` contains no comma and whose `v` is valid float text,
`QueryValue` returns the float parsed from `v`, independent of the channel
prefix — provided the unit letter is `V`, the only letter the code removes. -/
theorem queryValue_wellFormed (ch v : List Char) (d : Dec)
    (hch : ∀ c ∈ ch, c ≠ ',') (hv : pyFloat? v = some d) :
    QueryValue (ch ++ ',' :: (v ++ ['V'])) = .ok d.toRat := by
  have hmem := pyFloat?_mem v d hv
  have hvnc : ∀ c ∈ v ++ ['V'], c ≠ ',' := by
    intro c hc
    rcases List.mem_append.mp hc with hm | hm
    · exact (allowedChar_ne c (hmem c hm)).1
    · simp only [List.mem_singleton] at hm
      subst hm
      decide
  have h1 : splitOnComma (ch ++ ',' :: (v ++ ['V'])) = ch :: splitOnComma (v ++ ['V']) :=
    splitOnComma_append _ _ hch
  have h2 : splitOnComma (v ++ ['V']) = [v ++ ['V']] := splitOnComma_no_comma _ hvnc
  have h3 : (v ++ ['V']).filter (fun c => c ≠ 'V') = v := by
    have hf : v.filter (fun c => c ≠ 'V') = v :=
      List.filter_eq_self.mpr
        (fun c hc => decide_eq_true (allowedChar_ne c (hmem c hc)).2)
    rw [List.filter_append, hf,
      show List.filter (fun c => decide (c ≠ 'V')) ['V'] = [] from rfl, List.append_nil]
  unfold QueryValue
  rw [h1, h2]
  simp only [List.getElem?_cons_succ, List.getElem?_cons_zero]
  rw [h3, hv]

/-- C1 witness: the response `"C1,1.234V"` parses to `1.234`. -/
theorem queryValue_wellFormed_witness :
    (∀ c ∈ "C1".toList, c ≠ ',') ∧
    QueryValue ("C1".toList ++ ',' :: ("1.234".toList ++ ['V'])) = .ok (Dec.toRat ⟨1234, -3⟩) :=
  ⟨by decide, queryValue_wellFormed "C1".toList "1.234".toList ⟨1234, -3⟩ (by decide) rfl⟩

/-- C2: a response with no comma, or whose second comma-separated field fails
to parse as a float after the code's removal of the letter `V`, makes
`QueryValue` fail with `ParseError`; no numeric value is returned. -/
theorem queryValue_failure (resp : List Char)
    (h : (∀ c ∈ resp, c ≠ ',') ∨
      ∀ seg, (splitOnComma resp)[1]? = some seg →
        pyFloat? (seg.filter (fun c => c ≠ 'V')) = none) :
    QueryValue resp = .error .parseError := by
  unfold QueryValue
  rcases h with h | h
  · rw [splitOnComma_no_comma resp h]
    rfl
  · cases hg : (splitOnComma resp)[1]? with
    | none => rfl
    | some seg => simp only [h seg hg]

/-- C2 witness: the comma-free response `"NOCOMMA"` yields `ParseError`. -/
theorem queryValue_failure_witness :
    (∀ c ∈ "NOCOMMA".toList, c ≠ ',') ∧
    QueryValue "NOCOMMA".toList = .error .parseError :=
  ⟨by decide, queryValue_failure "NOCOMMA".toList (Or.inl (by decide))⟩

/-- C3 counterexample: on the response `"C1,1.5,2.5V"` (more than one comma)
the claim's rule — the ENTIRE text after the first comma with one trailing
unit letter stripped, i.e. `float("1.5,2.5")` — fails to parse, yet the code
takes only the field between the first and second commas and returns `1.5`. -/
theorem specParsedMeasurement_cex :
    exceptToOption (QueryValue "C1,1.5,2.5V".toList) ≠
      specParsedMeasurement "C1,1.5,2.5V".toList ∧
    specParsedMeasurement "C1,1.5,2.5V".toList = none ∧
    QueryValue "C1,1.5,2.5V".toList = .ok (Dec.toRat ⟨15, -1⟩) := by
  refine ⟨?_, rfl, rfl⟩
  intro h
  rw [show exceptToOption (QueryValue "C1,1.5,2.5V".toList) = some (Dec.toRat ⟨15, -1⟩) from rfl,
    show specParsedMeasurement "C1,1.5,2.5V".toList = none from rfl] at h
  exact Option.noConfusion h

/-- C3 (amended): for every response, the parsed measurement agrees exactly
with taking the text after the first comma, truncating it at the next comma,
removing every occurrence of the letter `V`, and parsing the rest as a float;
`QueryValue` fails precisely when that rule yields nothing. -/
theorem queryValue_eq_secondField (resp : List Char) :
    exceptToOption (QueryValue resp) = specParsedMeasurementAmended resp := by
  unfold QueryValue specParsedMeasurementAmended
  rw [splitOnComma_get1 resp]
  cases afterFirstComma resp with
  | none => rfl
  | some t => exact exceptToOption_match _

/-- C4: `ComputeResistance x y r = (x / y) * r` for nonzero `y`; moreover with
the code's operands — the two mean voltages scaled to millivolts and the fixed
reference resistance `R` — the scaling cancels and the result is `(x / y) * R`. -/
theorem computeResistance_eq (x y r : ℚ) (hy : y ≠ 0) :
    ComputeResistance x y r = .ok (x / y * r) ∧
    ComputeResistance (toMillivolts x) (toMillivolts y) R = .ok (x / y * R) := by
  have hy1000 : toMillivolts y ≠ 0 := by
    unfold toMillivolts
    intro h
    rcases mul_eq_zero.mp h with h | h
    · exact hy h
    · norm_num at h
  constructor
  · unfold ComputeResistance
    rw [if_neg hy]
  · unfold ComputeResistance
    rw [if_neg hy1000]
    unfold toMillivolts
    rw [mul_div_mul_right _ _ (by norm_num : (1000:ℚ) ≠ 0)]

/-- C4 witness: `ComputeResistance 0.5 0.25 10 = 20`, the spec's example. -/
theorem computeResistance_eq_witness :
    ((0.25 : ℚ) ≠ 0) ∧ ComputeResistance 0.5 0.25 10 = .ok 20 := by
  have h := (computeResistance_eq 0.5 0.25 10 (by norm_num)).1
  refine ⟨by norm_num, ?_⟩
  rw [h]
  simp only [Except.ok.injEq]
  norm_num

/-- C5: a zero denominator makes `ComputeResistance` fail with
`DivisionError` for every numerator and reference resistance; no numeric
value is returned. -/
theorem computeResistance_zero_den (x r : ℚ) :
    ComputeResistance x 0 r = .error .divisionError := by
  unfold ComputeResistance
  rw [if_pos rfl]

/-- C6: the volts-to-millivolts conversion multiplies by 1000
(`toMillivolts 1.234 = 1234`, `toMillivolts 0 = 0`), and end to end the
response `"C1,0.123V"` parses to `0.123` volts, which converts to `123`
millivolts. -/
theorem toMillivolts_examples :
    toMillivolts 1.234 = 1234 ∧ toMillivolts 0 = 0 ∧
    QueryValue "C1,0.123V".toList = .ok 0.123 ∧
    toMillivolts 0.123 = 123 := by
  refine ⟨by norm_num [toMillivolts], by norm_num [toMillivolts], ?_, by norm_num [toMillivolts]⟩
  rw [show QueryValue "C1,0.123V".toList = .ok (Dec.toRat ⟨123, -3⟩) from rfl]
  simp only [Except.ok.injEq]
  norm_num [Dec.toRat, tenPow]

/-- A parse failure in any of the four responses makes the loop body skip the
iteration (the `continue` of line 140). -/
theorem parseStep_skip (s1 s2 s3 s4 : List Char)
    (h : QueryValue s1 = .error .parseError ∨ QueryValue s2 = .error .parseError ∨
      QueryValue s3 = .error .parseError ∨ QueryValue s4 = .error .parseError) :
    parseStep s1 s2 s3 s4 = .skipParse := by
  unfold parseStep
  rcases h with h | h | h | h
  · simp only [h]
  · cases h1 : QueryValue s1 with
    | error e => simp only [h1]
    | ok v1 => simp only [h1, h]
  · cases h1 : QueryValue s1 with
    | error e => simp only [h1]
    | ok v1 =>
      cases h2 : QueryValue s2 with
      | error e => simp only [h1, h2]
      | ok v2 => simp only [h1, h2, h]
  · cases h1 : QueryValue s1 with
    | error e => simp only [h1]
    | ok v1 =>
      cases h2 : QueryValue s2 with
      | error e => simp only [h1, h2]
      | ok v2 =>
        cases h3 : QueryValue s3 with
        | error e => simp only [h1, h2, h3]
        | ok v3 => simp only [h1, h2, h3, h]

/-- C7: if any of the four responses of an iteration fails to parse, the loop
reports the error (the `skipped` event), skips that iteration, and continues
with the remaining iterations exactly as it would have otherwise. -/
theorem pollLoop_skipsIteration (s1 s2 s3 s4 : List Char) (rest : List IterIn)
    (h : QueryValue s1 = .error .parseError ∨ QueryValue s2 = .error .parseError ∨
      QueryValue s3 = .error .parseError ∨ QueryValue s4 = .error .parseError) :
    continuousMeasurementLoop (⟨some s1, some s2, some s3, some s4⟩ :: rest) =
      ⟨.skipped :: (continuousMeasurementLoop rest).events,
        (continuousMeasurementLoop rest).ending⟩ := by
  have hs : stepIteration ⟨some s1, some s2, some s3, some s4⟩ = .skipParse :=
    parseStep_skip s1 s2 s3 s4 h
  simp only [continuousMeasurementLoop, hs]

/-- C7 witness: the spec's scenario — the response `"C1,BADVAL"` yields
`ParseError` and the iteration is skipped, leaving the rest of the loop as is. -/
theorem pollLoop_skipsIteration_witness :
    QueryValue "C1,BADVAL".toList = .error .parseError ∧
    continuousMeasurementLoop
      (⟨some "C1,BADVAL".toList, some "C1,0.5V".toList, some "C2,0.5V".toList,
        some "C2,0.25V".toList⟩ :: []) =
      ⟨.skipped :: (continuousMeasurementLoop []).events,
        (continuousMeasurementLoop []).ending⟩ :=
  ⟨rfl, pollLoop_skipsIteration _ _ _ _ [] (Or.inl rfl)⟩

/-- An iteration whose four responses all parse but whose channel-2 mean is
zero ends in the uncaught `ZeroDivisionError` of line 136. -/
theorem parseStep_division (s1 s2 s3 s4 : List Char) (v1 v2 v3 v4 : ℚ)
    (h1 : QueryValue s1 = .ok v1) (h2 : QueryValue s2 = .ok v2)
    (h3 : QueryValue s3 = .ok v3) (h4 : QueryValue s4 = .ok v4)
    (hz : toMillivolts v4 = 0) :
    parseStep s1 s2 s3 s4 = .fatalDivision := by
  unfold parseStep
  simp [h1, h2, h3, h4, ComputeResistance, hz]

/-- An iteration whose four responses all parse with nonzero channel-2 mean
prints the measurement line of 143. -/
theorem parseStep_output (s1 s2 s3 s4 : List Char) (v1 v2 v3 v4 : ℚ)
    (h1 : QueryValue s1 = .ok v1) (h2 : QueryValue s2 = .ok v2)
    (h3 : QueryValue s3 = .ok v3) (h4 : QueryValue s4 = .ok v4)
    (hnz : toMillivolts v4 ≠ 0) :
    parseStep s1 s2 s3 s4 =
      .output (toMillivolts v1) (toMillivolts v2) (toMillivolts v3) (toMillivolts v4)
        (toMillivolts v2 / toMillivolts v4 * R) := by
  unfold parseStep
  simp [h1, h2, h3, h4, ComputeResistance, hnz]

/-- A successful iteration prepends its printed line and the loop goes on. -/
theorem loop_cons_output (it : IterIn) (rest : List IterIn) (a b c d r : ℚ)
    (h : stepIteration it = .output a b c d r) :
    continuousMeasurementLoop (it :: rest) =
      ⟨.printed a b c d r :: (continuousMeasurementLoop rest).events,
        (continuousMeasurementLoop rest).ending⟩ := by
  simp only [continuousMeasurementLoop, h]

/-- An iteration ending in the division error terminates the whole loop. -/
theorem loop_cons_division (it : IterIn) (rest : List IterIn)
    (h : stepIteration it = .fatalDivision) :
    continuousMeasurementLoop (it :: rest) = ⟨[], .generalError⟩ := by
  simp only [continuousMeasurementLoop, h]

/-- C8 counterexample: an iteration with channel-2 mean `"C2,0.0V"` followed
by a fully well-behaved iteration.  The claim says the division error is
caught at the loop boundary and only that iteration skipped; in the code the
`ZeroDivisionError` escapes the loop (the inner `except` catches only
`IndexError` and `ValueError`), so the run produces no events and ends with
the `except Exception` handler — the following good iteration, which on its
own would print one line, is never processed. -/
theorem pollLoop_divisionError_cex :
    continuousMeasurementLoop
      (⟨some "C1,0.5V".toList, some "C1,0.5V".toList, some "C2,0.5V".toList,
        some "C2,0.0V".toList⟩ :: [goodIter]) = ⟨[], .generalError⟩ ∧
    (continuousMeasurementLoop [goodIter]).events ≠ [] ∧
    (continuousMeasurementLoop [goodIter]).ending = .ranOut := by
  have hz : toMillivolts (Dec.toRat ⟨0, -1⟩) = 0 := by
    norm_num [toMillivolts, Dec.toRat, tenPow]
  have hnz : toMillivolts (Dec.toRat ⟨25, -2⟩) ≠ 0 := by
    norm_num [toMillivolts, Dec.toRat, tenPow]
  have hbad : stepIteration
      ⟨some "C1,0.5V".toList, some "C1,0.5V".toList, some "C2,0.5V".toList,
        some "C2,0.0V".toList⟩ = .fatalDivision :=
    parseStep_division "C1,0.5V".toList "C1,0.5V".toList "C2,0.5V".toList
      "C2,0.0V".toList (Dec.toRat ⟨5, -1⟩) (Dec.toRat ⟨5, -1⟩) (Dec.toRat ⟨5, -1⟩)
      (Dec.toRat ⟨0, -1⟩)
      (show QueryValue "C1,0.5V".toList = Except.ok (Dec.toRat ⟨5, -1⟩) from rfl)
      (show QueryValue "C1,0.5V".toList = Except.ok (Dec.toRat ⟨5, -1⟩) from rfl)
      (show QueryValue "C2,0.5V".toList = Except.ok (Dec.toRat ⟨5, -1⟩) from rfl)
      (show QueryValue "C2,0.0V".toList = Except.ok (Dec.toRat ⟨0, -1⟩) from rfl) hz
  have hgood : stepIteration goodIter =
      .output (toMillivolts (Dec.toRat ⟨5, -1⟩)) (toMillivolts (Dec.toRat ⟨5, -1⟩))
        (toMillivolts (Dec.toRat ⟨5, -1⟩)) (toMillivolts (Dec.toRat ⟨25, -2⟩))
        (toMillivolts (Dec.toRat ⟨5, -1⟩) / toMillivolts (Dec.toRat ⟨25, -2⟩) * R) :=
    parseStep_output "C1,0.5V".toList "C1,0.5V".toList "C2,0.5V".toList
      "C2,0.25V".toList (Dec.toRat ⟨5, -1⟩) (Dec.toRat ⟨5, -1⟩) (Dec.toRat ⟨5, -1⟩)
      (Dec.toRat ⟨25, -2⟩)
      (show QueryValue "C1,0.5V".toList = Except.ok (Dec.toRat ⟨5, -1⟩) from rfl)
      (show QueryValue "C1,0.5V".toList = Except.ok (Dec.toRat ⟨5, -1⟩) from rfl)
      (show QueryValue "C2,0.5V".toList = Except.ok (Dec.toRat ⟨5, -1⟩) from rfl)
      (show QueryValue "C2,0.25V".toList = Except.ok (Dec.toRat ⟨25, -2⟩) from rfl) hnz
  have hrun : continuousMeasurementLoop [goodIter] =
      ⟨[.printed (toMillivolts (Dec.toRat ⟨5, -1⟩)) (toMillivolts (Dec.toRat ⟨5, -1⟩))
        (toMillivolts (Dec.toRat ⟨5, -1⟩)) (toMillivolts (Dec.toRat ⟨25, -2⟩))
        (toMillivolts (Dec.toRat ⟨5, -1⟩) / toMillivolts (Dec.toRat ⟨25, -2⟩) * R)],
        .ranOut⟩ := by
    rw [loop_cons_output goodIter [] _ _ _ _ _ hgood]
    rfl
  refine ⟨loop_cons_division _ [goodIter] hbad, ?_, ?_⟩
  · rw [hrun]
    simp
  · rw [hrun]

/-- C8 (amended): a division error during steady-state polling — all four
responses of an iteration parse and the channel-2 mean is zero — is NOT
caught at the loop boundary: the `ZeroDivisionError` escapes the `while`
loop to the `except Exception` handler of lines 151-152, which logs it, and
the loop terminates; no later iteration is processed. -/
theorem pollLoop_divisionFatal (s1 s2 s3 s4 : List Char) (v1 v2 v3 v4 : ℚ)
    (rest : List IterIn)
    (h1 : QueryValue s1 = .ok v1) (h2 : QueryValue s2 = .ok v2)
    (h3 : QueryValue s3 = .ok v3) (h4 : QueryValue s4 = .ok v4)
    (hz : toMillivolts v4 = 0) :
    continuousMeasurementLoop (⟨some s1, some s2, some s3, some s4⟩ :: rest) =
      ⟨[], .generalError⟩ := by
  exact loop_cons_division _ rest
    (parseStep_division s1 s2 s3 s4 v1 v2 v3 v4 h1 h2 h3 h4 hz)

/-- C8 witness: the zero-mean response `"C2,0.0V"` ends the loop with the
general-error logging even though a good iteration follows. -/
theorem pollLoop_divisionFatal_witness :
    QueryValue "C2,0.0V".toList = .ok (Dec.toRat ⟨0, -1⟩) ∧
    toMillivolts (Dec.toRat ⟨0, -1⟩) = 0 ∧
    continuousMeasurementLoop
      (⟨some "C1,0.5V".toList, some "C1,0.5V".toList, some "C2,0.5V".toList,
        some "C2,0.0V".toList⟩ :: [goodIter]) = ⟨[], .generalError⟩ :=
  ⟨rfl, by norm_num [toMillivolts, Dec.toRat, tenPow],
    pollLoop_divisionFatal "C1,0.5V".toList "C1,0.5V".toList "C2,0.5V".toList
      "C2,0.0V".toList (Dec.toRat ⟨5, -1⟩) (Dec.toRat ⟨5, -1⟩) (Dec.toRat ⟨5, -1⟩)
      (Dec.toRat ⟨0, -1⟩) [goodIter]
      (show QueryValue "C1,0.5V".toList = Except.ok (Dec.toRat ⟨5, -1⟩) from rfl)
      (show QueryValue "C1,0.5V".toList = Except.ok (Dec.toRat ⟨5, -1⟩) from rfl)
      (show QueryValue "C2,0.5V".toList = Except.ok (Dec.toRat ⟨5, -1⟩) from rfl)
      (show QueryValue "C2,0.0V".toList = Except.ok (Dec.toRat ⟨0, -1⟩) from rfl)
      (by norm_num [toMillivolts, Dec.toRat, tenPow])⟩

/-- C9: on the setup-failure path (`open_resource` raising a
`CommunicationError`) the code does NOT release the session once — the
`finally` block evaluates `inst.close()` with `inst` unbound, so zero close
calls are made and an uncaught `NameError` leaves `main`.  When the session
does open, exactly one close happens for every run of the loop, and a
communication failure during polling ends the loop (no retry). -/
theorem main_session_cleanup :
    mainModel false [] = ⟨0, .uncaughtNameError⟩ ∧
    (∀ iters, (mainModel true iters).closeCalls = 1) ∧
    (∀ s2 s3 s4 rest,
      continuousMeasurementLoop (⟨none, s2, s3, s4⟩ :: rest) = ⟨[], .visaError⟩) := by
  refine ⟨rfl, fun iters => rfl, fun s2 s3 s4 rest => ?_⟩
  simp [continuousMeasurementLoop, stepIteration]

/-- C10: on every failure path — zero input current, communication error, or
malformed response — `calculate_resistance` prints exactly one message and
returns `None`; no exception reaches the caller and the return value carries
no error kind. -/
theorem calculate_resistance_failure (current : ℚ) (query : Option (List Char))
    (h : current = 0 ∨ query = none ∨
      ∃ resp, query = some resp ∧ QueryValue resp = .error .parseError) :
    (calculate_resistance current query).2 = none ∧
    (calculate_resistance current query).1.length = 1 := by
  rcases h with h | h | ⟨resp, hq, hp⟩
  · simp [calculate_resistance, h]
  · subst h
    by_cases hc : current = 0 <;> simp [calculate_resistance, hc]
  · subst hq
    by_cases hc : current = 0 <;> simp [calculate_resistance, hc, hp]

/-- C10 witness: zero current prints one message and returns `None`. -/
theorem calculate_resistance_failure_witness :
    ((0 : ℚ) = 0 ∨ (none : Option (List Char)) = none ∨
      ∃ resp, (none : Option (List Char)) = some resp ∧
        QueryValue resp = .error .parseError) ∧
    (calculate_resistance 0 none).2 = none ∧
    (calculate_resistance 0 none).1.length = 1 :=
  ⟨Or.inl rfl, calculate_resistance_failure 0 none (Or.inl rfl)⟩

end ReadOscilloscope
